import Mathlib

/-!
  # ARONIA core: shallow embedding and verification

  This file embeds the ARONIA node/peer runtime — the binary frame codec
  with its signature discipline (src/protocol.js), the introduction
  validator and cycle detector (src/protocol.js), and the per-connection
  peer-session state machine (src/peer.js) — and proves the spec's
  testable properties about the embedded definitions.

  Modelling conventions:
  * JS `Buffer`s are `List Nat`; a well-formed buffer has all entries
    below 256 (`AllBytes`).  Multi-byte integers are written and read
    big-endian exactly as the source does with writeUInt32BE and friends.
  * The Ed25519 primitive is out of scope of the source (it is the
    external `hypercore-crypto` collaborator), so `createFrame`,
    `verifyFrame`, `createIntroductionRecord` and `validateIntroduction`
    take the `sign` / `verify` functions as parameters; theorems that
    need cryptographic facts state them as explicit hypotheses.
  * `JSON.stringify` of an introduction body is modelled by an explicit
    canonical encoding `encodeIntroPayload` over the same fields in the
    same order; the signer and the validator of the source both
    stringify that field list, and both sides of the embedding use the
    same encoder.
  * The event-loop side effects of a peer session (timers, promise
    resolution, stream writes) are modelled by explicit effect lists
    returned next to the successor state.
-/

namespace Aronia

/-! ## Byte-level utilities -/

/-- Read the byte of a buffer at index `i` (0 when out of range). -/
def byteAt (l : List Nat) (i : Nat) : Nat := l.getD i 0

/-- The half-open byte range `[a, b)` of a buffer, as `subarray(a, b)`. -/
def listSlice (l : List Nat) (a b : Nat) : List Nat := (l.drop a).take (b - a)

/-- Big-endian 16-bit write, as `writeUInt16BE`. -/
def u16BE (n : Nat) : List Nat := [n / 2 ^ 8 % 256, n % 256]

/-- Big-endian 32-bit write, as `writeUInt32BE`. -/
def u32BE (n : Nat) : List Nat :=
  [n / 2 ^ 24 % 256, n / 2 ^ 16 % 256, n / 2 ^ 8 % 256, n % 256]

/-- Big-endian 64-bit write, as `writeBigUInt64BE`. -/
def u64BE (n : Nat) : List Nat :=
  [n / 2 ^ 56 % 256, n / 2 ^ 48 % 256, n / 2 ^ 40 % 256, n / 2 ^ 32 % 256,
   n / 2 ^ 24 % 256, n / 2 ^ 16 % 256, n / 2 ^ 8 % 256, n % 256]

/-- Big-endian 16-bit read at offset `i`, as `readUInt16BE`. -/
def readU16BE (l : List Nat) (i : Nat) : Nat :=
  byteAt l i * 2 ^ 8 + byteAt l (i + 1)

/-- Big-endian 32-bit read at offset `i`, as `readUInt32BE`. -/
def readU32BE (l : List Nat) (i : Nat) : Nat :=
  byteAt l i * 2 ^ 24 + byteAt l (i + 1) * 2 ^ 16 +
    byteAt l (i + 2) * 2 ^ 8 + byteAt l (i + 3)

/-- Big-endian 64-bit read at offset `i`, as `readBigUInt64BE`.  The source
converts the result with `Number(...)`; timestamps produced by `Date.now()`
are far below 2^53, where that conversion is exact, so the embedding keeps
the full value. -/
def readU64BE (l : List Nat) (i : Nat) : Nat :=
  byteAt l i * 2 ^ 56 + byteAt l (i + 1) * 2 ^ 48 +
    byteAt l (i + 2) * 2 ^ 40 + byteAt l (i + 3) * 2 ^ 32 +
    byteAt l (i + 4) * 2 ^ 24 + byteAt l (i + 5) * 2 ^ 16 +
    byteAt l (i + 6) * 2 ^ 8 + byteAt l (i + 7)

/-- Every entry of the buffer is a byte value. -/
def AllBytes (l : List Nat) : Prop := ∀ x ∈ l, x < 256

instance (l : List Nat) : Decidable (AllBytes l) := by
  unfold AllBytes; infer_instance

/-- Flip bit `k` of the byte at index `i`. -/
def flipBit (l : List Nat) (i k : Nat) : List Nat :=
  l.set i (Nat.xor (byteAt l i) (2 ^ k))

/-- One lower-case hexadecimal digit. -/
def hexDigit (n : Nat) : Char :=
  if n < 10 then Char.ofNat (48 + n) else Char.ofNat (87 + n)

/-- Lower-case hex rendering of a byte buffer, as `toString('hex')`. -/
def bytesToHex (bs : List Nat) : String :=
  String.mk (bs.foldr (fun b acc => hexDigit (b / 16 % 16) :: hexDigit (b % 16) :: acc) [])

/-! ## Frame codec (src/protocol.js)

The wire frame: length (u32), version (u8), type (u8), flags (u16),
timestamp (u64), 32-byte sender pubkey, variable payload, 64-byte
signature, all big-endian.  `HEADER_SIZE = 52` and `SIGNATURE_SIZE = 64`
in src/types.js give the parser's 116-byte minimum, while the fields
actually written before the payload total 48 bytes. -/

structure Frame where
  length : Nat
  version : Nat
  type : Nat
  flags : Nat
  timestamp : Nat
  senderPubkey : List Nat
  payload : List Nat
  signature : List Nat
deriving DecidableEq, Repr

/-- The distinct `ProtocolError` causes raised by `deserializeFrame`. -/
inductive PErr where
  | bufferTooSmall
  | lengthMismatch
  | badVersion
  | negativePayload
deriving DecidableEq, Repr

/-- `serializeFrame`: header fields, payload, then the signature.  The
length field is recomputed from the payload (the source ignores
`frame.length` when writing).  The version and type bytes are reduced
mod 256 exactly where the source's `writeUInt8` requires byte range. -/
def serializeFrame (f : Frame) : List Nat :=
  u32BE (112 + f.payload.length) ++ [f.version % 256] ++ [f.type % 256] ++
    u16BE f.flags ++ u64BE f.timestamp ++ f.senderPubkey ++ f.payload ++ f.signature

/-- `deserializeFrame`: minimum length 116, length-field check, version
check, then the payload-length derivation `length - offset - 64` with
`offset = 48` after the fixed fields. -/
def deserializeFrame (b : List Nat) : Except PErr Frame :=
  if b.length < 116 then .error .bufferTooSmall
  else
    let len := readU32BE b 0
    if b.length ≠ len then .error .lengthMismatch
    else
      let version := byteAt b 4
      if version ≠ 1 then .error .badVersion
      else
        let payloadLength : Int := (len : Int) - 48 - 64
        if payloadLength < 0 then .error .negativePayload
        else
          .ok { length := len
                version := version
                type := byteAt b 5
                flags := readU16BE b 6
                timestamp := readU64BE b 8
                senderPubkey := listSlice b 16 48
                payload := listSlice b 48 (48 + payloadLength.toNat)
                signature := listSlice b (48 + payloadLength.toNat) (48 + payloadLength.toNat + 64) }

/-- An Ed25519 keypair as delivered by `hypercore-crypto`. -/
structure KeyPair where
  publicKey : List Nat
  secretKey : List Nat
deriving DecidableEq, Repr

/-- The frame `createFrame` assembles before signing: protocol version 1,
the caller's type/flags, the current timestamp, the signer's pubkey, the
payload bytes, and a zero-filled 64-byte signature placeholder. -/
def unsignedFrame (type : Nat) (payloadBytes : List Nat) (kp : KeyPair)
    (flags : Nat) (now : Nat) : Frame :=
  { length := 112 + payloadBytes.length
    version := 1
    type := type
    flags := flags
    timestamp := now
    senderPubkey := kp.publicKey
    payload := payloadBytes
    signature := List.replicate 64 0 }

/-- The byte range `createFrame` signs: the serialized frame minus its
final 64 signature bytes. -/
def frameSignedData (type : Nat) (payloadBytes : List Nat) (kp : KeyPair)
    (flags : Nat) (now : Nat) : List Nat :=
  let buf := serializeFrame (unsignedFrame type payloadBytes kp flags now)
  buf.take (buf.length - 64)

/-- `createFrame`: serialize with a zero signature placeholder, sign the
prefix excluding the last 64 bytes, and install the signature.  The
payload bytes stand for `Buffer.from(JSON.stringify(payload))`. -/
def createFrame (sign : List Nat → List Nat → List Nat) (type : Nat)
    (payloadBytes : List Nat) (kp : KeyPair) (flags : Nat) (now : Nat) : Frame :=
  { unsignedFrame type payloadBytes kp flags now with
    signature := sign (frameSignedData type payloadBytes kp flags now) kp.secretKey }

/-- `verifyFrame`: re-serialize with the signature zeroed and verify the
prefix excluding the last 64 bytes against the frame's sender pubkey. -/
def verifyFrame (verify : List Nat → List Nat → List Nat → Bool) (f : Frame) : Bool :=
  let buf := serializeFrame { f with signature := List.replicate 64 0 }
  verify (buf.take (buf.length - 64)) f.signature f.senderPubkey

/-! ## Introduction validator (src/protocol.js)

An introduction record carries hex-encoded pubkeys as strings plus the
opaque alias / capabilities / message JSON values (modelled as strings),
a millisecond timestamp, the trust path, and the introducer's signature
over the canonical serialization of everything but the signature. -/

structure Introduction where
  pubkey : String
  aliasName : String
  capabilities : String
  message : String
  introducerPubkey : String
  timestamp : Int
  trustPath : List String
  signature : List Nat
deriving DecidableEq, Repr

/-- The distinct outcomes of `validateIntroduction`. -/
inductive VResult where
  | ok
  | expired
  | fromFuture
  | badSignature
  | introducerMismatch
deriving DecidableEq, Repr

/-- Length-prefixed code points of a string, one building block of the
canonical introduction-body encoding. -/
def encStr (s : String) : List Nat := s.length :: s.data.map Char.toNat

/-- Sign-and-magnitude encoding of an integer field. -/
def encInt (i : Int) : List Nat := [if i < 0 then 1 else 0, i.natAbs]

/-- Length-prefixed encoding of a string list. -/
def encStrList (l : List String) : List Nat := l.length :: (l.map encStr).flatten

/-- Models `JSON.stringify` of the introduction body — the fields
`pubkey, alias, capabilities, message, introducerPubkey, timestamp,
trustPath` in exactly the order the source lists them, excluding the
signature.  The signer (`createIntroduction`) and the validator
(`validateIntroduction`) both stringify this field list, so both sides
of the embedding share this encoder. -/
def encodeIntroPayload (intro : Introduction) : List Nat :=
  encStr intro.pubkey ++ encStr intro.aliasName ++ encStr intro.capabilities ++
    encStr intro.message ++ encStr intro.introducerPubkey ++
    encInt intro.timestamp ++ encStrList intro.trustPath

/-- The record part of `createIntroduction`: sign the canonical body with
the introducer's secret key and attach the signature. -/
def createIntroductionRecord (sign : List Nat → List Nat → List Nat)
    (intro : Introduction) (kp : KeyPair) : Introduction :=
  { intro with signature := sign (encodeIntroPayload intro) kp.secretKey }

/-- `validateIntroduction`: age window, signature over the canonical body
against the delivering peer's pubkey, and the hex introducer-identity
check — in the source's order.  The source performs no trust-path
inspection here. -/
def validateIntroduction (verify : List Nat → List Nat → List Nat → Bool)
    (intro : Introduction) (introducerPubkey : List Nat)
    (now maxAge : Int) : VResult :=
  let age := now - intro.timestamp
  if age > maxAge then .expired
  else if age < 0 then .fromFuture
  else if ¬ verify (encodeIntroPayload intro) intro.signature introducerPubkey then .badSignature
  else if intro.introducerPubkey ≠ bytesToHex introducerPubkey then .introducerMismatch
  else .ok

/-- The `seen`-set loop of `detectCircularTrust`, with the set of already
visited entries as an explicit list. -/
def hasDupAux : List String → List String → Bool
  | [], _ => false
  | p :: rest, seen => if seen.contains p then true else hasDupAux rest (p :: seen)

/-- `detectCircularTrust`: true when the trust path contains the node's
own pubkey or any duplicate entry. -/
def detectCircularTrust (trustPath : List String) (ownPubkey : String) : Bool :=
  if trustPath.contains ownPubkey then true
  else hasDupAux trustPath []

/-! ## Peer session (src/peer.js)

A `PeerConnection`'s mutable fields, with timers named by identifiers
drawn from a per-session counter.  Event-loop side effects (clearing
timers, resolving or rejecting a pending request's promise, destroying
the stream, emitting events) are returned as explicit effect lists. -/

/-- The capability triple exchanged after handshake. -/
structure Caps where
  agent : String
  version : String
  accepts : List String
deriving DecidableEq, Repr

/-- A `pendingRequests` entry: the deadline timer handle (the resolver
callbacks are modelled by effects naming the request id). -/
structure PendingEntry where
  timer : Nat
deriving DecidableEq, Repr

/-- The `error` member of a RESPONSE payload. -/
structure RpcError where
  message : String
deriving DecidableEq, Repr

/-- A decoded RESPONSE payload. -/
structure RpcResponse where
  id : String
  result : Option String
  error : Option RpcError
deriving DecidableEq, Repr

/-- Observable side effects of a session step. -/
inductive Eff where
  | clearTimeout (timer : Nat)
  | clearInterval (timer : Nat)
  | resolveReq (reqId : String) (result : Option String)
  | rejectReqError (reqId : String) (message : String)
  | rejectReqOffline (reqId : String)
  | rejectReqTimeout (reqId : String)
  | rejectReqSendFailure (reqId : String)
  | streamDestroy
  | emitDisconnect
  | emitError
  | emitCapabilities
  | emitMessage
  | emitIntroduction
  | emitRequest
deriving DecidableEq, Repr

/-- The mutable state of a `PeerConnection`. -/
structure PeerSt where
  pubkey : String
  destroyed : Bool
  online : Bool
  lastSeen : Nat
  capabilities : Caps
  pendingRequests : List (String × PendingEntry)
  requestCounter : Nat
  writeQueue : List (List Nat)
  writeDraining : Bool
  heartbeatTimer : Option Nat
  heartbeatTimeoutTimer : Option Nat
  nextTimerId : Nat
deriving DecidableEq, Repr

/-- `Map.get` on the insertion-ordered pending map. -/
def alLookup (l : List (String × PendingEntry)) (k : String) : Option PendingEntry :=
  match l with
  | [] => none
  | (k2, v) :: t => if k2 = k then some v else alLookup t k

/-- `Map.delete` on the pending map. -/
def alErase (l : List (String × PendingEntry)) (k : String) : List (String × PendingEntry) :=
  l.filter (fun p => p.1 ≠ k)

/-- The constructor's initial state: online, nothing pending, an empty
write queue with `writeDraining = false`, and the heartbeat interval and
liveness timers armed by `startHeartbeat`. -/
def initialPeerState (pubkey : String) (now : Nat) : PeerSt :=
  { pubkey := pubkey
    destroyed := false
    online := true
    lastSeen := now
    capabilities := { agent := "unknown", version := "0.0.0", accepts := [] }
    pendingRequests := []
    requestCounter := 0
    writeQueue := []
    writeDraining := false
    heartbeatTimer := some 0
    heartbeatTimeoutTimer := some 1
    nextTimerId := 2 }

/-- `handleResponse`: drop unknown ids; otherwise clear the entry's
timer, remove it, and resolve with `result` or reject with the error
message. -/
def handleResponse (st : PeerSt) (resp : RpcResponse) : PeerSt × List Eff :=
  match alLookup st.pendingRequests resp.id with
  | none => (st, [])
  | some pending =>
    let st2 := { st with pendingRequests := alErase st.pendingRequests resp.id }
    match resp.error with
    | some e => (st2, [.clearTimeout pending.timer, .rejectReqError resp.id e.message])
    | none => (st2, [.clearTimeout pending.timer, .resolveReq resp.id resp.result])

/-- `stopHeartbeat`: clear whichever of the two timers is armed. -/
def stopHeartbeatEffs (st : PeerSt) : List Eff :=
  (match st.heartbeatTimer with
   | some t => [Eff.clearInterval t]
   | none => []) ++
  (match st.heartbeatTimeoutTimer with
   | some t => [Eff.clearTimeout t]
   | none => [])

/-- The per-entry teardown of the pending map: clear the deadline timer
and reject the caller with `PeerOfflineError`. -/
def rejectPendingEffs (pending : List (String × PendingEntry)) : List Eff :=
  (pending.map (fun p => [Eff.clearTimeout p.2.timer, Eff.rejectReqOffline p.1])).flatten

/-- `handleDisconnect`: a no-op once destroyed; otherwise mark offline,
stop both timers, fail every pending request with `PeerOfflineError`,
clear the map, and emit the disconnect event.  It does not set the
`destroyed` flag and does not destroy the stream. -/
def handleDisconnect (st : PeerSt) : PeerSt × List Eff :=
  if st.destroyed then (st, [])
  else
    ({ st with online := false
               heartbeatTimer := none
               heartbeatTimeoutTimer := none
               pendingRequests := [] },
     stopHeartbeatEffs st ++ rejectPendingEffs st.pendingRequests ++ [.emitDisconnect])

/-- `destroy`: a no-op once destroyed; otherwise set the flag, stop both
timers, destroy the stream, fail every pending request with
`PeerOfflineError`, and clear the map. -/
def destroy (st : PeerSt) : PeerSt × List Eff :=
  if st.destroyed then (st, [])
  else
    ({ st with destroyed := true
               heartbeatTimer := none
               heartbeatTimeoutTimer := none
               pendingRequests := [] },
     stopHeartbeatEffs st ++ [.streamDestroy] ++ rejectPendingEffs st.pendingRequests)

/-- The two steps `request` performs in order inside the promise
executor: arm the deadline timer and register the pending entry, then
build and send the REQUEST frame. -/
inductive ReqStep where
  | registered (id : String) (timer : Nat)
  | sentFrame (id : String)
deriving DecidableEq, Repr

/-- The request id `${Date.now()}-${++this.requestCounter}`. -/
def requestId (now : Nat) (counter : Nat) : String :=
  toString now ++ "-" ++ toString counter

/-- `Map.set` on the pending map: overwrite in place or append. -/
def alSet (l : List (String × PendingEntry)) (k : String) (v : PendingEntry) :
    List (String × PendingEntry) :=
  match l with
  | [] => [(k, v)]
  | (k2, w) :: t => if k2 = k then (k2, v) :: t else (k2, w) :: alSet t k v

/-- What the synchronous part of `request` produces. -/
structure RequestCallResult where
  state : PeerSt
  id : String
  timer : Nat
  trace : List ReqStep
deriving DecidableEq, Repr

/-- The synchronous part of `request`: bump the counter, arm the
deadline timer, insert the pending entry, and only then hand the
REQUEST frame to `writeFrame`.  Returns the state from which the frame
is sent, the request id, the deadline-timer handle, and the ordered
step trace. -/
def requestCall (st : PeerSt) (now : Nat) : RequestCallResult :=
  let counter2 := st.requestCounter + 1
  let id := requestId now counter2
  let timer := st.nextTimerId
  { state := { st with requestCounter := counter2
                       nextTimerId := st.nextTimerId + 1
                       pendingRequests := alSet st.pendingRequests id { timer := timer } }
    id := id
    timer := timer
    trace := [.registered id timer, .sentFrame id] }

/-- The `.catch` handler of the frame send inside `request`: clear the
deadline timer, drop the entry, and reject the caller with the send
error. -/
def requestOnSendFail (st : PeerSt) (id : String) (timer : Nat) : PeerSt × List Eff :=
  ({ st with pendingRequests := alErase st.pendingRequests id },
   [.clearTimeout timer, .rejectReqSendFailure id])

/-- The deadline-timer callback of `request`: drop the entry and reject
the caller with `RequestTimeoutError`. -/
def requestOnDeadline (st : PeerSt) (id : String) : PeerSt × List Eff :=
  ({ st with pendingRequests := alErase st.pendingRequests id },
   [.rejectReqTimeout id])

/-! ### Write path and backpressure (src/peer.js writeFrame)

`writeFrame` throws `PeerOfflineError` once destroyed, returns
immediately when `stream.write` reports it can continue, and otherwise
parks the buffer on `writeQueue` and waits in the `checkDrain`
`setImmediate` loop, racing a 30 s backpressure timer.  The loop polls
`this.writeDraining`; the drain trajectory seen by the polls and the
number of polls the 30 s timer allows are the model's parameters. -/

/-- How a `writeFrame` call leaves the synchronous part. -/
inductive WriteStart where
  | threwOffline
  | finished
  | parked
deriving DecidableEq, Repr

/-- The synchronous part of `writeFrame`, with `canContinue` the value
`stream.write` returned.  Note the parked branch does not touch
`writeDraining`. -/
def writeFrameStep (st : PeerSt) (canContinue : Bool) (buffer : List Nat) :
    PeerSt × WriteStart :=
  if st.destroyed then (st, .threwOffline)
  else if canContinue then (st, .finished)
  else ({ st with writeQueue := st.writeQueue ++ [buffer] }, .parked)

/-- The first poll instant at which `checkDrain` sees
`writeDraining = false`, within the poll budget. -/
def firstNotDraining (draining : Nat → Bool) : Nat → Nat → Option Nat
  | 0, _ => none
  | fuel + 1, t => if draining t then firstNotDraining draining fuel (t + 1) else some t

/-- How a parked write's promise settles. -/
inductive ParkOutcome where
  | resolvedAt (poll : Nat)
  | backpressureFailure
deriving DecidableEq, Repr

/-- The race between the `checkDrain` polling loop and the 30 s
backpressure timer: the promise resolves at the first poll that sees
`writeDraining = false`, and rejects with the backpressure error only
when every poll before the timer fires sees `true`. -/
def parkedOutcome (draining : Nat → Bool) (timeoutPolls : Nat) : ParkOutcome :=
  match firstNotDraining draining timeoutPolls 0 with
  | some t => .resolvedAt t
  | none => .backpressureFailure

/-- One pass of the `processWriteQueue` while loop: `results n` is what
`stream.write` returns for the n-th queued buffer written during this
pass.  Successful writes leave the loop running; the first refused
write re-raises `writeDraining` and leaves the remaining buffers
queued. -/
def processLoop (results : Nat → Bool) : List (List Nat) → Nat → List (List Nat) × Bool
  | [], _ => ([], false)
  | _b :: rest, n => if results n then processLoop results rest (n + 1) else (rest, true)

/-- `processWriteQueue`, run on the `drain` event: lower `writeDraining`,
then drain the queue until it empties or a write is refused. -/
def processWriteQueue (results : Nat → Bool) (st : PeerSt) : PeerSt :=
  let r := processLoop results st.writeQueue 0
  { st with writeQueue := r.1, writeDraining := r.2 }

/-! ### Inbound data path (src/peer.js handleData) -/

/-- The fields of a `JSON.parse`d payload that the frame dispatcher
inspects: `type` and `data` for CONTROL, `id`, `result` and `error.message`
for RESPONSE. -/
structure JsonObj where
  ctype : Option String
  cdata : Option Caps
  rid : Option String
  result : Option String
  errorMessage : Option String
deriving DecidableEq, Repr

/-- View a decoded payload as a RESPONSE payload. -/
def respOfJson (j : JsonObj) : RpcResponse :=
  { id := j.rid.getD ""
    result := j.result
    error := j.errorMessage.map RpcError.mk }

/-- `handleControl`: heartbeats are pure no-ops; a capabilities message
with a `data` member replaces the stored capabilities and surfaces the
capabilities event. -/
def handleControl (st : PeerSt) (j : JsonObj) : PeerSt × List Eff :=
  match j.ctype with
  | some s =>
    if s = "heartbeat" then (st, [])
    else if s = "capabilities" then
      match j.cdata with
      | some d => ({ st with capabilities := d }, [.emitCapabilities])
      | none => (st, [])
    else (st, [])
  | none => (st, [])

/-- `handleFrame`: decode the JSON payload (a decode failure propagates
to `handleData`'s catch, which surfaces an error event) and dispatch on
the frame type byte: CONTROL 1, REQUEST 2, RESPONSE 3, EVENT 4,
INTRODUCE 7, anything else a protocol error event. -/
def handleFrame (decoder : List Nat → Option JsonObj) (st : PeerSt) (f : Frame) :
    PeerSt × List Eff :=
  match decoder f.payload with
  | none => (st, [.emitError])
  | some j =>
    if f.type = 1 then handleControl st j
    else if f.type = 2 then (st, [.emitRequest])
    else if f.type = 3 then handleResponse st (respOfJson j)
    else if f.type = 4 then (st, [.emitMessage])
    else if f.type = 7 then (st, [.emitIntroduction])
    else (st, [.emitError])

/-- `resetHeartbeatTimeout`: clear any armed liveness timer and arm a
fresh one. -/
def resetHeartbeatTimeout (st : PeerSt) : PeerSt × List Eff :=
  ({ st with heartbeatTimeoutTimer := some st.nextTimerId
             nextTimerId := st.nextTimerId + 1 },
   match st.heartbeatTimeoutTimer with
   | some t => [Eff.clearTimeout t]
   | none => [])

/-- `handleData`: the very first statements update `lastSeen` and rearm
the liveness timer; only afterwards is the frame parsed, signature
checked, and matched against the session's expected sender. -/
def handleData (verify : List Nat → List Nat → List Nat → Bool)
    (decoder : List Nat → Option JsonObj)
    (st : PeerSt) (now : Nat) (data : List Nat) : PeerSt × List Eff :=
  let stA := { st with lastSeen := now }
  let reset := resetHeartbeatTimeout stA
  let stB := reset.1
  let effsB := reset.2
  match deserializeFrame data with
  | .error _ => (stB, effsB ++ [.emitError])
  | .ok f =>
    if verifyFrame verify f = false then (stB, effsB ++ [.emitError])
    else if bytesToHex f.senderPubkey ≠ st.pubkey then (stB, effsB ++ [.emitError])
    else
      let step := handleFrame decoder stB f
      (step.1, effsB ++ step.2)

/-- Whether a parse attempt raised a `ProtocolError`. -/
def isError (r : Except PErr Frame) : Bool :=
  match r with
  | .error _ => true
  | .ok _ => false

/-! ## Concrete instances for witnesses and counterexamples

The signature primitive is external, so concrete evaluations instantiate
the `sign` / `verify` parameters with small executable schemes that have
exactly the properties the corresponding theorem assumes. -/

/-- A toy signature: the signed message followed by the secret key.  With
`toyVerify` below and a keypair whose halves coincide, a signature made
with a key verifies against that key. -/
def toySign (m sk : List Nat) : List Nat := m ++ sk

/-- The toy verifier matching `toySign`. -/
def toyVerify (m s pk : List Nat) : Bool := s == m ++ pk

/-- The toy introducer key used by the C1 counterexample (public half =
secret half, as `toySign` / `toyVerify` require). -/
def toyKey : List Nat := [5, 9]

/-- An introduction body whose `trustPath` contains a duplicate entry —
a cycle in the sense of `detectCircularTrust` — signed by `toyKey`. -/
def cexIntroBody : Introduction :=
  { pubkey := "cc"
    aliasName := "friend"
    capabilities := "caps"
    message := "hi"
    introducerPubkey := bytesToHex toyKey
    timestamp := 50
    trustPath := ["b", "b"]
    signature := [] }

/-- The C1 counterexample record: `cexIntroBody` completed with the
introducer's signature, exactly as `createIntroduction` builds it. -/
def cexIntro : Introduction := createIntroductionRecord toySign cexIntroBody ⟨toyKey, toyKey⟩

/-- A signer returning a fixed 64-byte signature; used where only the
signature's length, never its content, matters. -/
def constSign64 (_m _sk : List Nat) : List Nat := List.replicate 64 0

/-- A well-formed Ed25519-shaped keypair: 32-byte public half. -/
def cexKp : KeyPair := ⟨List.replicate 32 1, List.replicate 32 2⟩

/-- The C3 failing input: the frame `createFrame` builds for the payload
whose JSON text is the two bytes of an empty object.  Its serialization
is 114 bytes — below the parser's 116-byte minimum. -/
def cexSmallFrame : Frame := createFrame constSign64 4 [123, 125] cexKp 0 1700000000000

/-- The C5 witness keypair. -/
def wKp : KeyPair := ⟨List.replicate 32 1, List.replicate 32 2⟩

/-- The C5 witness payload bytes. -/
def wPayload : List Nat := [65, 66, 67, 68]

/-- The byte range signed for the C5 witness frame. -/
def wData : List Nat := frameSignedData 4 wPayload wKp 0 1000

/-- The C5 witness signer: a fixed 64-byte signature. -/
def wSign (_m _sk : List Nat) : List Nat := List.replicate 64 7

/-- The C5 witness verifier: accepts exactly the message `wSign` signed,
so a signature binds its message as the claim-5 hypothesis demands. -/
def wVerify (m _s _pk : List Nat) : Bool := m == wData

/-- The C5 witness frame as produced by `createFrame`. -/
def wFrame : Frame := createFrame wSign 4 wPayload wKp 0 1000

/-- The C5 witness frame's wire bytes. -/
def wBuf : List Nat := serializeFrame wFrame

/-- `wBuf` with bit 0 of byte 48 — the first payload byte — flipped. -/
def wTampered : List Nat := flipBit wBuf 48 0

/-- What `deserializeFrame` recovers from `wTampered`. -/
def wParsed : Frame :=
  { length := 116
    version := 1
    type := 4
    flags := 0
    timestamp := 1000
    senderPubkey := List.replicate 32 1
    payload := [64, 66, 67, 68]
    signature := List.replicate 64 7 }

/-- A session state with one pending request, for the C8 teardown
counterexample. -/
def cexPeerState : PeerSt :=
  { initialPeerState "ab" 0 with pendingRequests := [("r1", { timer := 5 })] }

/-- A session state with one pending request, for the C8 witness. -/
def w8State : PeerSt :=
  { initialPeerState "cd" 0 with pendingRequests := [("r1", { timer := 5 })] }

/-- A session state with one pending request, for the C7 witness. -/
def w7State : PeerSt :=
  { initialPeerState "ab" 0 with pendingRequests := [("7-1", { timer := 9 })] }

/-- A successful RESPONSE payload matching `w7State`'s pending entry. -/
def w7Resp : RpcResponse := { id := "7-1", result := some "ok", error := none }

/-- The session state after `request` registered its entry, for the C6
witness. -/
def w6State : PeerSt := (requestCall (initialPeerState "ab" 0) 1000).state

/-- A RESPONSE that arrives after the C6 witness request's deadline. -/
def w6Resp : RpcResponse := { id := requestId 1000 1, result := some "late", error := none }

instance : DecidableEq (Except PErr Frame) := fun x y =>
  match x, y with
  | .error a, .error b =>
    if h : a = b then .isTrue (by rw [h]) else .isFalse (by simp [h])
  | .ok a, .ok b =>
    if h : a = b then .isTrue (by rw [h]) else .isFalse (by simp [h])
  | .error _, .ok _ => .isFalse (by simp)
  | .ok _, .error _ => .isFalse (by simp)

/-! ## Trust-path cycle detection (C9) -/

/-- The `seen`-set loop finds exactly a duplicate inside the remaining
path or a clash between the remaining path and the already-seen set. -/
theorem hasDupAux_iff (tp : List String) :
    ∀ seen, hasDupAux tp seen = true ↔ ¬ tp.Nodup ∨ ∃ x ∈ tp, x ∈ seen := by
  induction tp with
  | nil => intro seen; simp [hasDupAux]
  | cons p rest ih =>
    intro seen
    by_cases hp : p ∈ seen
    · have hc : seen.contains p = true := List.elem_iff.mpr hp
      simp only [hasDupAux, hc]
      rw [if_pos trivial]
      exact iff_of_true rfl (Or.inr ⟨p, by simp, hp⟩)
    · have hc : seen.contains p = false :=
        Bool.eq_false_iff.mpr (fun hcc => hp (List.elem_iff.mp hcc))
      simp only [hasDupAux, hc]
      rw [if_neg (by simp)]
      rw [ih (p :: seen)]
      simp only [List.nodup_cons, List.mem_cons]
      constructor
      · rintro (hnd | ⟨x, hx, hxp | hxs⟩)
        · exact Or.inl (fun h => hnd h.2)
        · exact Or.inl (fun h => h.1 (hxp ▸ hx))
        · exact Or.inr ⟨x, Or.inr hx, hxs⟩
      · rintro (hnd | ⟨x, hxp | hx, hxs⟩)
        · by_cases hpr : p ∈ rest
          · exact Or.inr ⟨p, hpr, Or.inl rfl⟩
          · exact Or.inl (fun h => hnd ⟨hpr, h⟩)
        · exact absurd (hxp ▸ hxs) hp
        · exact Or.inr ⟨x, hx, Or.inr hxs⟩

/-- Claim C9: `detectCircularTrust(trustPath, ownPubkey)` returns true
exactly when the trust path contains the node's own pubkey or a
duplicate entry; in particular on the spec's three examples it returns
true, true, false. -/
theorem claim9_detectCircularTrust :
    (∀ (tp : List String) (own : String),
      detectCircularTrust tp own = true ↔ own ∈ tp ∨ ¬ tp.Nodup) ∧
    detectCircularTrust ["b", "c", "a"] "a" = true ∧
    detectCircularTrust ["b", "c", "b"] "z" = true ∧
    detectCircularTrust ["a", "b", "c"] "z" = false := by
  refine ⟨fun tp own => ?_, by decide, by decide, by decide⟩
  unfold detectCircularTrust
  by_cases ho : own ∈ tp
  · have hc : tp.contains own = true := List.elem_iff.mpr ho
    rw [hc, if_pos rfl]
    exact iff_of_true rfl (Or.inl ho)
  · have hc : tp.contains own = false :=
      Bool.eq_false_iff.mpr (fun hcc => ho (List.elem_iff.mp hcc))
    rw [hc, if_neg (by simp)]
    rw [hasDupAux_iff tp []]
    simp [ho]

/-! ## Parse failure conditions (C4) -/

/-- Claim C4: `deserializeFrame` fails with a `ProtocolError` exactly
when the buffer is shorter than 116 bytes, the big-endian u32 length
field differs from the buffer length, or the version byte is not 1 —
the claim's fourth condition, a negative derived payload length, is
subsumed by the first two; otherwise a structured frame is returned. -/
theorem claim4_deserializeFrame_failure (b : List Nat) :
    isError (deserializeFrame b) = true ↔
      (b.length < 116 ∨ readU32BE b 0 ≠ b.length ∨ byteAt b 4 ≠ 1 ∨
       (readU32BE b 0 : Int) - 52 - 64 < 0) := by
  simp only [deserializeFrame]
  split_ifs with h1 h2 h3 h4
  · exact iff_of_true rfl (Or.inl h1)
  · exact iff_of_true rfl (Or.inr (Or.inl (Ne.symm h2)))
  · exact iff_of_true rfl (Or.inr (Or.inr (Or.inl h3)))
  · exact iff_of_true rfl (Or.inr (Or.inr (Or.inr (by omega))))
  · refine iff_of_false (by simp [isError]) ?_
    omega

/-! ## Introduction validation (C1) -/

/-- Claim C1 (amended): for every introduction record and delivering
pubkey, `validateIntroduction` returns valid exactly when the age is in
`[0, maxAge]`, the signature over the canonical body verifies against
the delivering pubkey, and the record's `introducerPubkey` is the hex
form of that pubkey.  `validateIntroduction` performs no trust-path
cycle or depth check. -/
theorem claim1_validateIntroduction_amended
    (verify : List Nat → List Nat → List Nat → Bool)
    (intro : Introduction) (pk : List Nat) (now maxAge : Int) :
    validateIntroduction verify intro pk now maxAge = .ok ↔
      (0 ≤ now - intro.timestamp ∧ now - intro.timestamp ≤ maxAge ∧
       verify (encodeIntroPayload intro) intro.signature pk = true ∧
       intro.introducerPubkey = bytesToHex pk) := by
  simp only [validateIntroduction]
  by_cases h1 : maxAge < now - intro.timestamp
  · rw [if_pos h1]
    exact iff_of_false (by simp) (fun h => absurd h.2.1 (not_le.mpr h1))
  · rw [if_neg h1]
    by_cases h2 : now - intro.timestamp < 0
    · rw [if_pos h2]
      exact iff_of_false (by simp) (fun h => absurd h.1 (not_le.mpr h2))
    · rw [if_neg h2]
      by_cases h3 : verify (encodeIntroPayload intro) intro.signature pk = true
      · rw [if_neg (not_not_intro h3)]
        by_cases h4 : intro.introducerPubkey = bytesToHex pk
        · rw [if_neg (not_not_intro h4)]
          exact iff_of_true rfl ⟨by omega, by omega, h3, h4⟩
        · rw [if_pos h4]
          exact iff_of_false (by simp) (fun h => h4 h.2.2.2)
      · rw [if_pos h3]
        exact iff_of_false (by simp) (fun h => h3 h.2.2.1)

/-- Claim C1 counterexample: a record built with the introducer key
whose trust path holds a duplicate entry (a cycle) still validates, so
validity is not equivalent to the claim's conjunction, whose cycle
conjunct fails here while every other conjunct holds. -/
theorem claim1_counterexample :
    ¬ (validateIntroduction toyVerify cexIntro toyKey 100 86400000 = .ok ↔
        (0 ≤ (100 : Int) - cexIntro.timestamp ∧
         (100 : Int) - cexIntro.timestamp ≤ 86400000 ∧
         toyVerify (encodeIntroPayload cexIntro) cexIntro.signature toyKey = true ∧
         cexIntro.introducerPubkey = bytesToHex toyKey ∧
         detectCircularTrust cexIntro.trustPath "aa" = false ∧
         cexIntro.trustPath.length ≤ 3)) := by
  decide

/-! ## Frame round trip at a small payload (C3) -/

/-- Claim C3 fails on the code: the frame `createFrame` builds for the
two-byte JSON payload of an empty object serializes to 114 bytes, and
`deserializeFrame` rejects its own serializer's output as too small —
the 116-byte minimum uses `HEADER_SIZE = 52` although the header
actually written is 48 bytes. -/
theorem claim3_roundtrip_code_bug :
    (serializeFrame cexSmallFrame).length = 114 ∧
    deserializeFrame (serializeFrame cexSmallFrame) = .error .bufferTooSmall := by
  exact ⟨by decide, by decide⟩

/-! ## Parked writes and backpressure (C2) -/

/-- Claim C2 fails on the code: `writeFrame`'s parked branch leaves
`writeDraining` untouched, and on a fresh session that flag is false,
so the `checkDrain` loop resolves the parked write at its very first
poll — before any drain event and long before the 30 s backpressure
timer — even though the transport refused the write. -/
theorem claim2_backpressure_code_bug :
    (∀ (st : PeerSt) (buffer : List Nat),
       ((writeFrameStep st false buffer).1).writeDraining = st.writeDraining) ∧
    (writeFrameStep (initialPeerState "ab" 0) false [1, 2, 3]).2 = .parked ∧
    ((writeFrameStep (initialPeerState "ab" 0) false [1, 2, 3]).1).writeDraining = false ∧
    parkedOutcome (fun _ => false) 1000 = .resolvedAt 0 := by
  refine ⟨fun st buffer => ?_, by decide, by decide, by decide⟩
  unfold writeFrameStep
  split_ifs <;> rfl

/-! ## RESPONSE dispatch (C7) -/

/-- Claim C7: an inbound RESPONSE with no matching pending request is
dropped without any state change; otherwise the entry's deadline timer
is cleared, the entry leaves the pending map, and the caller is resolved
with `result` or rejected with the error's message. -/
theorem claim7_handleResponse (st : PeerSt) (resp : RpcResponse) :
    (alLookup st.pendingRequests resp.id = none → handleResponse st resp = (st, [])) ∧
    (∀ e, alLookup st.pendingRequests resp.id = some e →
      (handleResponse st resp).1 =
        { st with pendingRequests := alErase st.pendingRequests resp.id } ∧
      (resp.error = none →
        (handleResponse st resp).2 = [.clearTimeout e.timer, .resolveReq resp.id resp.result]) ∧
      (∀ err, resp.error = some err →
        (handleResponse st resp).2 = [.clearTimeout e.timer, .rejectReqError resp.id err.message])) := by
  constructor
  · intro h
    simp [handleResponse, h]
  · intro e he
    cases herr : resp.error with
    | none =>
      refine ⟨?_, fun _ => ?_, fun err hsome => ?_⟩
      · simp [handleResponse, he, herr]
      · simp [handleResponse, he, herr]
      · exact Option.noConfusion hsome
    | some err0 =>
      refine ⟨?_, fun hnone => ?_, fun err hsome => ?_⟩
      · simp [handleResponse, he, herr]
      · exact Option.noConfusion hnone
      · injection hsome with hh
        subst hh
        simp [handleResponse, he, herr]

/-- Witness for C7 at a concrete session holding one pending request and
a successful response for it. -/
theorem claim7_witness :
    (handleResponse w7State w7Resp).1 =
      { w7State with pendingRequests := alErase w7State.pendingRequests w7Resp.id } ∧
    (handleResponse w7State w7Resp).2 =
      [.clearTimeout 9, .resolveReq w7Resp.id w7Resp.result] := by
  have h := (claim7_handleResponse w7State w7Resp).2 { timer := 9 } (by decide)
  exact ⟨h.1, h.2.1 rfl⟩

/-! ## Request lifecycle (C6) -/

/-- Looking up a key just written by `Map.set` yields the new entry. -/
theorem alLookup_alSet_self (l : List (String × PendingEntry)) (k : String) (v : PendingEntry) :
    alLookup (alSet l k v) k = some v := by
  induction l with
  | nil => simp [alSet, alLookup]
  | cons p t ih =>
    obtain ⟨k2, w⟩ := p
    by_cases h : k2 = k
    · simp [alSet, h, alLookup]
    · simp [alSet, h, alLookup, ih]

/-- Looking up a key just deleted from the map yields nothing. -/
theorem alLookup_alErase_self (l : List (String × PendingEntry)) (k : String) :
    alLookup (alErase l k) k = none := by
  induction l with
  | nil => rfl
  | cons p t ih =>
    obtain ⟨k2, w⟩ := p
    by_cases h : k2 = k
    · simpa [alErase, List.filter, h] using ih
    · simpa [alErase, List.filter, h, alLookup] using ih

/-- Claim C6: `request` registers the pending entry with its deadline
timer strictly before the REQUEST frame is sent (the entry is present
in the state the send starts from); a failed send clears the timer,
removes the entry and rejects the caller; a fired deadline removes the
entry and rejects the caller with `RequestTimeoutError`; and a response
arriving after the deadline is silently dropped. -/
theorem claim6_request_lifecycle :
    (∀ (st : PeerSt) (now : Nat),
       (requestCall st now).trace =
         [.registered (requestCall st now).id (requestCall st now).timer,
          .sentFrame (requestCall st now).id] ∧
       alLookup (requestCall st now).state.pendingRequests (requestCall st now).id =
         some { timer := (requestCall st now).timer }) ∧
    (∀ (st : PeerSt) (rid : String) (timer : Nat),
       alLookup (requestOnSendFail st rid timer).1.pendingRequests rid = none ∧
       (requestOnSendFail st rid timer).2 = [.clearTimeout timer, .rejectReqSendFailure rid]) ∧
    (∀ (st : PeerSt) (rid : String),
       alLookup (requestOnDeadline st rid).1.pendingRequests rid = none ∧
       (requestOnDeadline st rid).2 = [.rejectReqTimeout rid]) ∧
    (∀ (st : PeerSt) (rid : String) (resp : RpcResponse), resp.id = rid →
       handleResponse (requestOnDeadline st rid).1 resp = ((requestOnDeadline st rid).1, [])) := by
  refine ⟨fun st now => ⟨rfl, ?_⟩, fun st rid timer => ⟨?_, rfl⟩,
          fun st rid => ⟨?_, rfl⟩, fun st rid resp hid => ?_⟩
  · exact alLookup_alSet_self st.pendingRequests (requestId now (st.requestCounter + 1)) _
  · exact alLookup_alErase_self st.pendingRequests rid
  · exact alLookup_alErase_self st.pendingRequests rid
  · have hnone : alLookup (requestOnDeadline st rid).1.pendingRequests resp.id = none := by
      rw [hid]
      exact alLookup_alErase_self st.pendingRequests rid
    simp [handleResponse, hnone]

/-- Witness for C6 at a concrete session: the registered request's
deadline fires, and the late response is dropped without effect. -/
theorem claim6_witness :
    handleResponse (requestOnDeadline w6State (requestId 1000 1)).1 w6Resp =
      ((requestOnDeadline w6State (requestId 1000 1)).1, []) :=
  (claim6_request_lifecycle).2.2.2 w6State (requestId 1000 1) w6Resp rfl

/-! ## Session teardown (C8) -/

/-- Every pending entry's teardown contributes its timer clear and its
`PeerOfflineError` rejection. -/
theorem mem_rejectPendingEffs (l : List (String × PendingEntry))
    (p : String × PendingEntry) (hp : p ∈ l) :
    Eff.clearTimeout p.2.timer ∈ rejectPendingEffs l ∧
    Eff.rejectReqOffline p.1 ∈ rejectPendingEffs l := by
  unfold rejectPendingEffs
  constructor <;>
    (rw [List.mem_flatten];
     exact ⟨[Eff.clearTimeout p.2.timer, Eff.rejectReqOffline p.1],
            List.mem_map.mpr ⟨p, hp, rfl⟩, by simp⟩)

/-- Stopping the heartbeat never destroys the stream. -/
theorem streamDestroy_not_mem_stopHeartbeatEffs (st : PeerSt) :
    Eff.streamDestroy ∉ stopHeartbeatEffs st := by
  unfold stopHeartbeatEffs
  cases st.heartbeatTimer <;> cases st.heartbeatTimeoutTimer <;> simp

/-- Rejecting the pending requests never destroys the stream. -/
theorem streamDestroy_not_mem_rejectPendingEffs (l : List (String × PendingEntry)) :
    Eff.streamDestroy ∉ rejectPendingEffs l := by
  unfold rejectPendingEffs
  rw [List.mem_flatten]
  rintro ⟨s, hs, hmem⟩
  obtain ⟨p, hp, rfl⟩ := List.mem_map.mp hs
  simp at hmem

/-- Claim C8 (amended): `destroy` marks the session destroyed, cancels
both timers, destroys the stream, rejects every pending request with
`PeerOfflineError` and clears the map, and is idempotent; a natural
stream close (`handleDisconnect`) cancels both timers, rejects every
pending request with `PeerOfflineError` and clears the map, but leaves
the `destroyed` flag false — marking the session offline instead — and
does not call `stream.destroy`. -/
theorem claim8_teardown (st : PeerSt) (h : st.destroyed = false) :
    ((destroy st).1.destroyed = true ∧
     (destroy st).1.heartbeatTimer = none ∧
     (destroy st).1.heartbeatTimeoutTimer = none ∧
     (destroy st).1.pendingRequests = [] ∧
     Eff.streamDestroy ∈ (destroy st).2 ∧
     (∀ p ∈ st.pendingRequests,
        Eff.clearTimeout p.2.timer ∈ (destroy st).2 ∧
        Eff.rejectReqOffline p.1 ∈ (destroy st).2)) ∧
    (∀ st2 : PeerSt, destroy (destroy st2).1 = ((destroy st2).1, [])) ∧
    ((handleDisconnect st).1.online = false ∧
     (handleDisconnect st).1.heartbeatTimer = none ∧
     (handleDisconnect st).1.heartbeatTimeoutTimer = none ∧
     (handleDisconnect st).1.pendingRequests = [] ∧
     (∀ p ∈ st.pendingRequests,
        Eff.clearTimeout p.2.timer ∈ (handleDisconnect st).2 ∧
        Eff.rejectReqOffline p.1 ∈ (handleDisconnect st).2) ∧
     (handleDisconnect st).1.destroyed = false ∧
     Eff.streamDestroy ∉ (handleDisconnect st).2) := by
  have hdest : destroy st =
      ({ st with destroyed := true, heartbeatTimer := none,
                 heartbeatTimeoutTimer := none, pendingRequests := [] },
       stopHeartbeatEffs st ++ [.streamDestroy] ++ rejectPendingEffs st.pendingRequests) := by
    unfold destroy
    rw [if_neg (by simp [h])]
  have hdisc : handleDisconnect st =
      ({ st with online := false, heartbeatTimer := none,
                 heartbeatTimeoutTimer := none, pendingRequests := [] },
       stopHeartbeatEffs st ++ rejectPendingEffs st.pendingRequests ++ [.emitDisconnect]) := by
    unfold handleDisconnect
    rw [if_neg (by simp [h])]
  refine ⟨⟨by rw [hdest], by rw [hdest], by rw [hdest], by rw [hdest], ?_, ?_⟩, ?_, ?_⟩
  · rw [hdest]; simp
  · intro p hp
    have hm := mem_rejectPendingEffs st.pendingRequests p hp
    rw [hdest]
    simp only [List.mem_append]
    exact ⟨Or.inr hm.1, Or.inr hm.2⟩
  · intro st2
    unfold destroy
    by_cases h2 : st2.destroyed
    · rw [if_pos h2, if_pos h2]
    · rw [if_neg h2]
      rw [if_pos rfl]
  · refine ⟨by rw [hdisc], by rw [hdisc], by rw [hdisc], by rw [hdisc], ?_, by rw [hdisc, h], ?_⟩
    · intro p hp
      have hm := mem_rejectPendingEffs st.pendingRequests p hp
      rw [hdisc]
      simp only [List.mem_append]
      exact ⟨Or.inl (Or.inr hm.1), Or.inl (Or.inr hm.2)⟩
    · rw [hdisc]
      simp only [List.mem_append]
      rintro ((hs | hr) | he)
      · exact streamDestroy_not_mem_stopHeartbeatEffs st hs
      · exact streamDestroy_not_mem_rejectPendingEffs st.pendingRequests hr
      · simp at he

/-- Claim C8 counterexample: on a live session with one pending request,
a natural stream close does not run the same teardown as `destroy` —
`destroy` raises the destroyed flag and destroys the stream, the
close handler does neither. -/
theorem claim8_counterexample :
    ¬ (handleDisconnect cexPeerState = destroy cexPeerState) ∧
    (destroy cexPeerState).1.destroyed = true ∧
    (handleDisconnect cexPeerState).1.destroyed = false ∧
    Eff.streamDestroy ∈ (destroy cexPeerState).2 ∧
    Eff.streamDestroy ∉ (handleDisconnect cexPeerState).2 := by
  decide

/-- Witness for C8 at a concrete live session with one pending
request. -/
theorem claim8_witness :
    w8State.destroyed = false ∧
    (destroy w8State).1.destroyed = true ∧
    Eff.streamDestroy ∈ (destroy w8State).2 ∧
    Eff.rejectReqOffline "r1" ∈ (destroy w8State).2 ∧
    destroy (destroy w8State).1 = ((destroy w8State).1, []) := by
  have h := claim8_teardown w8State rfl
  exact ⟨rfl, h.1.1, h.1.2.2.2.2.1,
         (h.1.2.2.2.2.2 ("r1", { timer := 5 }) (by decide)).2,
         h.2.1 w8State⟩

/-! ## Liveness refresh on inbound data (C10) -/

/-- `handleControl` never touches `lastSeen` or the liveness timer. -/
theorem handleControl_preserves (st : PeerSt) (j : JsonObj) :
    ((handleControl st j).1).lastSeen = st.lastSeen ∧
    ((handleControl st j).1).heartbeatTimeoutTimer = st.heartbeatTimeoutTimer := by
  unfold handleControl
  cases j.ctype with
  | none => exact ⟨rfl, rfl⟩
  | some s =>
    dsimp only
    split_ifs with hs1 hs2
    · exact ⟨rfl, rfl⟩
    · cases j.cdata <;> exact ⟨rfl, rfl⟩
    · exact ⟨rfl, rfl⟩

/-- `handleResponse` never touches `lastSeen` or the liveness timer. -/
theorem handleResponse_preserves (st : PeerSt) (resp : RpcResponse) :
    ((handleResponse st resp).1).lastSeen = st.lastSeen ∧
    ((handleResponse st resp).1).heartbeatTimeoutTimer = st.heartbeatTimeoutTimer := by
  unfold handleResponse
  cases alLookup st.pendingRequests resp.id with
  | none => exact ⟨rfl, rfl⟩
  | some e => cases resp.error <;> exact ⟨rfl, rfl⟩

/-- Frame dispatch never touches `lastSeen` or the liveness timer. -/
theorem handleFrame_preserves (decoder : List Nat → Option JsonObj)
    (st : PeerSt) (f : Frame) :
    ((handleFrame decoder st f).1).lastSeen = st.lastSeen ∧
    ((handleFrame decoder st f).1).heartbeatTimeoutTimer = st.heartbeatTimeoutTimer := by
  unfold handleFrame
  cases decoder f.payload with
  | none => exact ⟨rfl, rfl⟩
  | some j =>
    split_ifs with h1 h2 h3 h4 h5
    · exact handleControl_preserves st j
    · exact ⟨rfl, rfl⟩
    · exact handleResponse_preserves st (respOfJson j)
    · exact ⟨rfl, rfl⟩
    · exact ⟨rfl, rfl⟩
    · exact ⟨rfl, rfl⟩

/-- Claim C10: every inbound data event — including data that fails to
parse, fails signature verification, or names the wrong sender —
updates `lastSeen` to the arrival time and rearms the liveness timer,
because `handleData` does both before parsing the frame. -/
theorem claim10_handleData_liveness (verify : List Nat → List Nat → List Nat → Bool)
    (decoder : List Nat → Option JsonObj) (st : PeerSt) (now : Nat) (data : List Nat) :
    ((handleData verify decoder st now data).1).lastSeen = now ∧
    ((handleData verify decoder st now data).1).heartbeatTimeoutTimer = some st.nextTimerId := by
  unfold handleData resetHeartbeatTimeout
  cases deserializeFrame data with
  | error e => exact ⟨rfl, rfl⟩
  | ok f =>
    dsimp only
    split_ifs with h1 h2
    · exact ⟨rfl, rfl⟩
    · exact ⟨rfl, rfl⟩
    · have hp := handleFrame_preserves decoder
        { st with lastSeen := now, heartbeatTimeoutTimer := some st.nextTimerId,
                  nextTimerId := st.nextTimerId + 1 } f
      exact ⟨hp.1, hp.2⟩

/-! ## Tamper detection (C5): byte-level groundwork -/

/-- Bytes of a well-formed buffer are below 256 at every index. -/
theorem byteAt_lt (l : List Nat) (hB : AllBytes l) (i : Nat) : byteAt l i < 256 := by
  unfold byteAt
  rw [List.getD_eq_getElem?_getD]
  cases hg : l[i]? with
  | none => simp
  | some a =>
    have ha : a ∈ l := by
      apply List.get?_mem
      rw [List.get?_eq_getElem?, hg]
    simpa using hB a ha

/-- Flipping one bit changes the byte. -/
theorem xor_pow_ne (n k : Nat) : Nat.xor n (2 ^ k) ≠ n := by
  intro h
  have h0 : n ^^^ 2 ^ k = n := h
  have h2 := congrArg (fun x => n ^^^ x) h0
  simp only [← Nat.xor_assoc, Nat.xor_self, Nat.zero_xor] at h2
  have h3 : 0 < 2 ^ k := Nat.pow_pos (by norm_num)
  omega

/-- Appending preserves well-formedness. -/
theorem AllBytes_append (l1 l2 : List Nat) (h1 : AllBytes l1) (h2 : AllBytes l2) :
    AllBytes (l1 ++ l2) := by
  intro x hx
  rcases List.mem_append.mp hx with h | h
  exacts [h1 x h, h2 x h]

/-- A 16-bit write produces bytes. -/
theorem AllBytes_u16BE (n : Nat) : AllBytes (u16BE n) := by
  intro x hx
  simp [u16BE] at hx
  rcases hx with rfl | rfl <;> omega

/-- A 32-bit write produces bytes. -/
theorem AllBytes_u32BE (n : Nat) : AllBytes (u32BE n) := by
  intro x hx
  simp [u32BE] at hx
  rcases hx with rfl | rfl | rfl | rfl <;> omega

/-- A 64-bit write produces bytes. -/
theorem AllBytes_u64BE (n : Nat) : AllBytes (u64BE n) := by
  intro x hx
  simp [u64BE] at hx
  rcases hx with rfl | rfl | rfl | rfl | rfl | rfl | rfl | rfl <;> omega

/-- Serialization of a frame with well-formed buffer fields is a
well-formed buffer. -/
theorem AllBytes_serializeFrame (f : Frame)
    (h1 : AllBytes f.senderPubkey) (h2 : AllBytes f.payload) (h3 : AllBytes f.signature) :
    AllBytes (serializeFrame f) := by
  unfold serializeFrame
  simp only [List.append_assoc]
  refine AllBytes_append _ _ (AllBytes_u32BE _)
    (AllBytes_append _ _ ?_
      (AllBytes_append _ _ ?_
        (AllBytes_append _ _ (AllBytes_u16BE _)
          (AllBytes_append _ _ (AllBytes_u64BE _)
            (AllBytes_append _ _ h1 (AllBytes_append _ _ h2 h3))))))
  · intro x hx; simp at hx; omega
  · intro x hx; simp at hx; omega

/-- A single-bit flip keeps the buffer well formed. -/
theorem AllBytes_flipBit (l : List Nat) (i k : Nat) (hk : k < 8) (hB : AllBytes l) :
    AllBytes (flipBit l i k) := by
  intro x hx
  rcases List.mem_or_eq_of_mem_set hx with h | rfl
  · exact hB x h
  · have h1 : byteAt l i < 2 ^ 8 := by simpa using byteAt_lt l hB i
    have h2 : 2 ^ k < 2 ^ 8 := Nat.pow_lt_pow_right (by norm_num) hk
    simpa using Nat.xor_lt_two_pow h1 h2

/-- The flipped buffer keeps its length. -/
theorem length_flipBit (l : List Nat) (i k : Nat) : (flipBit l i k).length = l.length := by
  simp [flipBit]

/-- The flipped byte reads back as the xor. -/
theorem byteAt_flipBit_self (l : List Nat) (i k : Nat) (h : i < l.length) :
    byteAt (flipBit l i k) i = Nat.xor (byteAt l i) (2 ^ k) := by
  unfold flipBit byteAt
  rw [List.getD_eq_getElem?_getD, List.getElem?_set, if_pos rfl, if_pos h]
  rfl

/-- Dropping past the modified index erases the modification. -/
theorem drop_set_of_lt (l : List Nat) (i n v : Nat) (h : i < n) :
    (l.set i v).drop n = l.drop n := by
  apply List.ext_getElem?
  intro j
  rw [List.getElem?_drop, List.getElem?_drop, List.getElem?_set, if_neg (by omega)]

/-- Reading inside a prefix reads the original buffer. -/
theorem byteAt_take (l : List Nat) (i n : Nat) (h : i < n) :
    byteAt (l.take n) i = byteAt l i := by
  unfold byteAt
  rw [List.getD_eq_getElem?_getD, List.getD_eq_getElem?_getD, List.getElem?_take, if_pos h]

/-- A slice's length. -/
theorem length_listSlice (l : List Nat) (a b : Nat) :
    (listSlice l a b).length = min (b - a) (l.length - a) := by
  simp [listSlice]

/-- One-byte slices are reads. -/
theorem listSlice_single (l : List Nat) (i : Nat) (h : i < l.length) :
    listSlice l i (i + 1) = [byteAt l i] := by
  unfold listSlice byteAt
  rw [List.drop_eq_getElem_cons h]
  have h1 : i + 1 - i = 1 := by omega
  rw [h1, List.getD_eq_getElem l 0 h]
  rfl

/-- Adjacent slices concatenate. -/
theorem listSlice_append (l : List Nat) (a b c : Nat) (hab : a ≤ b) (hbc : b ≤ c) :
    listSlice l a b ++ listSlice l b c = listSlice l a c := by
  unfold listSlice
  have h1 : c - a = (b - a) + (c - b) := by omega
  rw [h1, List.take_add]
  congr 2
  rw [List.drop_drop]
  congr 1
  omega

/-- A prefix is the slice from zero. -/
theorem take_eq_listSlice (l : List Nat) (n : Nat) : l.take n = listSlice l 0 n := by
  simp [listSlice]

/-- An in-bounds slice enumerates its byte reads. -/
theorem listSlice_map_range (l : List Nat) :
    ∀ (n i : Nat), i + n ≤ l.length →
      listSlice l i (i + n) = (List.range n).map (fun j => byteAt l (i + j)) := by
  intro n
  induction n with
  | zero => intro i h; simp [listSlice]
  | succ m ih =>
    intro i h
    have hsplit : listSlice l i (i + (m + 1)) =
        listSlice l i (i + 1) ++ listSlice l (i + 1) (i + (m + 1)) :=
      (listSlice_append l i (i + 1) (i + (m + 1)) (by omega) (by omega)).symm
    rw [hsplit, listSlice_single l i (by omega)]
    have h2 : i + (m + 1) = (i + 1) + m := by omega
    rw [h2, ih (i + 1) (by omega)]
    rw [List.range_succ_eq_map]
    simp only [List.map_cons, List.map_map, List.singleton_append, Nat.add_zero]
    have hfun : ((fun j => byteAt l (i + j)) ∘ Nat.succ) = (fun j => byteAt l (i + 1 + j)) := by
      funext j
      simp only [Function.comp_apply]
      congr 1
      omega
    rw [hfun]

/-- Writing back a 16-bit read reproduces the two source bytes. -/
theorem u16BE_readU16BE (l : List Nat) (i : Nat) (hB : AllBytes l) (h : i + 2 ≤ l.length) :
    u16BE (readU16BE l i) = listSlice l i (i + 2) := by
  have b0 := byteAt_lt l hB i
  have b1 := byteAt_lt l hB (i + 1)
  rw [listSlice_map_range l 2 i h]
  have hr : List.range 2 = [0, 1] := rfl
  rw [hr]
  simp only [List.map_cons, List.map_nil, Nat.add_zero]
  simp only [u16BE, readU16BE, List.cons.injEq, and_true]
  exact ⟨by omega, by omega⟩

/-- Writing back a 32-bit read reproduces the four source bytes. -/
theorem u32BE_readU32BE (l : List Nat) (i : Nat) (hB : AllBytes l) (h : i + 4 ≤ l.length) :
    u32BE (readU32BE l i) = listSlice l i (i + 4) := by
  have b0 := byteAt_lt l hB i
  have b1 := byteAt_lt l hB (i + 1)
  have b2 := byteAt_lt l hB (i + 2)
  have b3 := byteAt_lt l hB (i + 3)
  rw [listSlice_map_range l 4 i h]
  have hr : List.range 4 = [0, 1, 2, 3] := rfl
  rw [hr]
  simp only [List.map_cons, List.map_nil, Nat.add_zero]
  simp only [u32BE, readU32BE, List.cons.injEq, and_true]
  exact ⟨by omega, by omega, by omega, by omega⟩

/-- Writing back a 64-bit read reproduces the eight source bytes. -/
theorem u64BE_readU64BE (l : List Nat) (i : Nat) (hB : AllBytes l) (h : i + 8 ≤ l.length) :
    u64BE (readU64BE l i) = listSlice l i (i + 8) := by
  have b0 := byteAt_lt l hB i
  have b1 := byteAt_lt l hB (i + 1)
  have b2 := byteAt_lt l hB (i + 2)
  have b3 := byteAt_lt l hB (i + 3)
  have b4 := byteAt_lt l hB (i + 4)
  have b5 := byteAt_lt l hB (i + 5)
  have b6 := byteAt_lt l hB (i + 6)
  have b7 := byteAt_lt l hB (i + 7)
  rw [listSlice_map_range l 8 i h]
  have hr : List.range 8 = [0, 1, 2, 3, 4, 5, 6, 7] := rfl
  rw [hr]
  simp only [List.map_cons, List.map_nil, Nat.add_zero]
  simp only [u64BE, readU64BE, List.cons.injEq, and_true]
  exact ⟨by omega, by omega, by omega, by omega, by omega, by omega, by omega, by omega⟩

/-- Inversion of a successful parse: the checks that passed and the
frame's fields as slices of the input buffer. -/
theorem deserializeFrame_ok_inv (b : List Nat) (f : Frame)
    (h : deserializeFrame b = .ok f) :
    116 ≤ b.length ∧ readU32BE b 0 = b.length ∧ byteAt b 4 = 1 ∧
    f = { length := b.length, version := 1, type := byteAt b 5, flags := readU16BE b 6,
          timestamp := readU64BE b 8, senderPubkey := listSlice b 16 48,
          payload := listSlice b 48 (b.length - 64),
          signature := listSlice b (b.length - 64) b.length } := by
  simp only [deserializeFrame] at h
  split_ifs at h with h1 h2 h3 h4
  injection h with hf
  have hlen : b.length = readU32BE b 0 := not_ne_iff.mp h2
  have hver : byteAt b 4 = 1 := not_ne_iff.mp h3
  have h116 : 116 ≤ b.length := by omega
  refine ⟨h116, hlen.symm, hver, ?_⟩
  rw [← hf]
  have hpl : ((readU32BE b 0 : Int) - 48 - 64).toNat = b.length - 112 := by omega
  rw [hpl]
  have e1 : 48 + (b.length - 112) = b.length - 64 := by omega
  rw [e1]
  have e2 : b.length - 64 + 64 = b.length := by omega
  rw [e2, ← hlen, hver]

/-- Re-serializing a parsed frame with the signature zeroed rebuilds the
input's signed range byte for byte. -/
theorem serializeFrame_of_ok (b : List Nat) (f : Frame) (hB : AllBytes b)
    (h : deserializeFrame b = .ok f) :
    serializeFrame { f with signature := List.replicate 64 0 } =
      b.take (b.length - 64) ++ List.replicate 64 0 := by
  obtain ⟨h116, hu32, hv, hf⟩ := deserializeFrame_ok_inv b f h
  subst hf
  simp only [serializeFrame]
  have hplen : (listSlice b 48 (b.length - 64)).length = b.length - 112 := by
    rw [length_listSlice]; omega
  rw [hplen]
  have h112 : 112 + (b.length - 112) = b.length := by omega
  rw [h112]
  have hu4 : u32BE b.length = listSlice b 0 4 := by
    rw [← hu32]
    have h0 := u32BE_readU32BE b 0 hB (by omega)
    simpa using h0
  have h1b : ([1 % 256] : List Nat) = listSlice b 4 5 := by
    have h0 := listSlice_single b 4 (by omega)
    norm_num at h0
    rw [h0, hv]
  have h5b : ([byteAt b 5 % 256] : List Nat) = listSlice b 5 6 := by
    have h0 := listSlice_single b 5 (by omega)
    norm_num at h0
    rw [h0]
    congr 1
    exact Nat.mod_eq_of_lt (byteAt_lt b hB 5)
  have h16 : u16BE (readU16BE b 6) = listSlice b 6 8 := by
    have h0 := u16BE_readU16BE b 6 hB (by omega)
    norm_num at h0
    exact h0
  have h64 : u64BE (readU64BE b 8) = listSlice b 8 16 := by
    have h0 := u64BE_readU64BE b 8 hB (by omega)
    norm_num at h0
    exact h0
  rw [hu4, h1b, h5b, h16, h64]
  rw [take_eq_listSlice]
  rw [← listSlice_append b 0 4 (b.length - 64) (by omega) (by omega),
      ← listSlice_append b 4 5 (b.length - 64) (by omega) (by omega),
      ← listSlice_append b 5 6 (b.length - 64) (by omega) (by omega),
      ← listSlice_append b 6 8 (b.length - 64) (by omega) (by omega),
      ← listSlice_append b 8 16 (b.length - 64) (by omega) (by omega),
      ← listSlice_append b 16 48 (b.length - 64) (by omega) (by omega)]
  simp only [List.append_assoc]

/-- The signature is the final serialized field. -/
theorem serializeFrame_append_signature (f : Frame) :
    serializeFrame f = serializeFrame { f with signature := ([] : List Nat) } ++ f.signature := by
  simp [serializeFrame]

/-- The signed range of `createFrame` is the zero-signature frame's
serialization without its trailing 64 placeholder bytes. -/
theorem frameSignedData_eq (type : Nat) (payloadBytes : List Nat) (kp : KeyPair)
    (flags now : Nat) :
    frameSignedData type payloadBytes kp flags now =
      serializeFrame { unsignedFrame type payloadBytes kp flags now with
                       signature := ([] : List Nat) } := by
  simp only [frameSignedData]
  rw [serializeFrame_append_signature (unsignedFrame type payloadBytes kp flags now)]
  rw [List.length_append]
  have h64 : (unsignedFrame type payloadBytes kp flags now).signature.length = 64 := by
    simp [unsignedFrame]
  rw [h64, Nat.add_sub_cancel]
  exact List.take_left _ _

/-- Claim C5: for a frame produced by `createFrame`, flipping any bit of
any serialized byte outside the trailing 64 signature bytes makes the
result invalid: if the tampered bytes still parse, the recovered frame
fails signature verification.  `hbind` is the cryptographic assumption
that the frame's signature verifies only for the exact byte range that
was signed. -/
theorem claim5_bitflip_invalidates
    (sign : List Nat → List Nat → List Nat)
    (verify : List Nat → List Nat → List Nat → Bool)
    (kp : KeyPair) (type : Nat) (payloadBytes : List Nat)
    (flags now i k : Nat) (f2 : Frame)
    (hpkB : AllBytes kp.publicKey)
    (hplB : AllBytes payloadBytes)
    (hsigLen : (createFrame sign type payloadBytes kp flags now).signature.length = 64)
    (hsigB : AllBytes (createFrame sign type payloadBytes kp flags now).signature)
    (hk : k < 8)
    (hi : i < (serializeFrame (createFrame sign type payloadBytes kp flags now)).length - 64)
    (hbind : ∀ m pk2,
       verify m (createFrame sign type payloadBytes kp flags now).signature pk2 = true →
       m = frameSignedData type payloadBytes kp flags now)
    (hparse : deserializeFrame
        (flipBit (serializeFrame (createFrame sign type payloadBytes kp flags now)) i k)
        = .ok f2) :
    verifyFrame verify f2 = false := by
  generalize hF : createFrame sign type payloadBytes kp flags now = F at hsigLen hsigB hi hbind hparse
  generalize hb : serializeFrame F = b at hi hparse
  generalize hb2 : flipBit b i k = b2 at hparse
  -- the serialized frame splits as signed range ++ signature
  have hcore : b = serializeFrame { F with signature := ([] : List Nat) } ++ F.signature := by
    rw [← hb]
    exact serializeFrame_append_signature F
  have hdata : frameSignedData type payloadBytes kp flags now =
      serializeFrame { F with signature := ([] : List Nat) } := by
    rw [frameSignedData_eq type payloadBytes kp flags now, ← hF]
    rfl
  generalize hC : serializeFrame { F with signature := ([] : List Nat) } = C at hcore hdata
  have hlenb : b.length = C.length + 64 := by
    rw [hcore, List.length_append, hsigLen]
  have htakeb : b.take (b.length - 64) = C := by
    rw [hcore, List.length_append, hsigLen, Nat.add_sub_cancel]
    exact List.take_left C F.signature
  have hsig_slice : listSlice b (b.length - 64) b.length = F.signature := by
    rw [hcore]
    unfold listSlice
    rw [List.length_append, hsigLen, Nat.add_sub_cancel]
    rw [List.drop_left C F.signature]
    have h1 : C.length + 64 - C.length = 64 := by omega
    rw [h1, ← hsigLen]
    exact List.take_length F.signature
  have hlen2 : b2.length = b.length := by
    rw [← hb2]
    exact length_flipBit b i k
  have hbB : AllBytes b := by
    rw [← hb, ← hF]
    exact AllBytes_serializeFrame _ hpkB hplB (by rw [hF]; exact hsigB)
  have hb2B : AllBytes b2 := by
    rw [← hb2]
    exact AllBytes_flipBit b i k hk hbB
  obtain ⟨h116, hu32, hv, hf2⟩ := deserializeFrame_ok_inv b2 f2 hparse
  have hres := serializeFrame_of_ok b2 f2 hb2B hparse
  cases hvv : verifyFrame verify f2 with
  | false => rfl
  | true =>
    exfalso
    -- the range the verifier checks is the tampered buffer's signed range
    have hbuflen : (serializeFrame { f2 with signature := List.replicate 64 0 }).length
        = b2.length := by
      rw [hres, List.length_append, List.length_take, List.length_replicate]
      omega
    have htake2 : (serializeFrame { f2 with signature := List.replicate 64 0 }).take
        ((serializeFrame { f2 with signature := List.replicate 64 0 }).length - 64)
        = b2.take (b2.length - 64) := by
      rw [hbuflen, hres]
      have hlt : (b2.take (b2.length - 64)).length = b2.length - 64 := by
        rw [List.length_take]
        omega
      exact List.take_left' hlt
    -- the tampered frame carries the original signature
    have hsig2 : f2.signature = F.signature := by
      have e1 : f2.signature = listSlice b2 (b2.length - 64) b2.length := by rw [hf2]
      rw [e1, hlen2, ← hb2]
      unfold flipBit listSlice
      rw [drop_set_of_lt b i (b.length - 64) _ hi]
      exact hsig_slice
    -- verification succeeded on the tampered signed range
    have hverify : verify (b2.take (b2.length - 64)) F.signature f2.senderPubkey = true := by
      have hv2 := hvv
      simp only [verifyFrame] at hv2
      rw [htake2, hsig2] at hv2
      exact hv2
    have hm := hbind (b2.take (b2.length - 64)) f2.senderPubkey hverify
    rw [hdata] at hm
    -- but the signed ranges differ at the flipped byte
    have hne : byteAt b2 i ≠ byteAt b i := by
      rw [← hb2]
      rw [byteAt_flipBit_self b i k (by omega)]
      exact xor_pow_ne (byteAt b i) k
    apply hne
    have heq : byteAt (b2.take (b2.length - 64)) i = byteAt (b.take (b.length - 64)) i := by
      rw [hm, htakeb]
    rw [byteAt_take b2 i (b2.length - 64) (by omega),
        byteAt_take b i (b.length - 64) (by omega)] at heq
    exact heq

/-- Witness for C5: flipping bit 0 of byte 48 — the first payload byte —
of the concrete witness frame's wire bytes still parses, and the parsed
frame fails verification. -/
theorem claim5_witness :
    deserializeFrame wTampered = .ok wParsed ∧ verifyFrame wVerify wParsed = false := by
  refine ⟨by decide, ?_⟩
  exact claim5_bitflip_invalidates wSign wVerify wKp 4 wPayload 0 1000 48 0 wParsed
    (by decide) (by decide) (by decide) (by decide) (by decide) (by decide)
    (fun m pk2 h => eq_of_beq h) (by decide)

end Aronia
